import Mathlib

/-!
Shallow embedding of `agentic_codebase_genius/utils/helpers.py`.

The Python source works over strings, a filesystem, and external
collaborators (Graphviz renderer, Gemini generative backend).  We embed:

* text processing on `List Char` (Python `str` helpers modelled by hand so
  every definition is executable and kernel-reducible);
* the filesystem as an inductive directory tree (`FTree`) for traversal
  inputs, and as a partial map `String -> Option String` for output files;
* the external renderer as an oracle `String -> Option String`
  (`some img` = success, `none` = any failure of the subprocess);
* the Gemini backend as an availability/credential environment plus a
  text-generation oracle; errors raised by the Python code become
  `Except GeminiError`.

Notes on fidelity: Python `str.strip()` also removes rare Unicode
whitespace, and `str.splitlines` also splits on rare control characters;
after `read_text`'s universal-newline translation only `'\n'` remains in
practice, so we model the ASCII whitespace set and `'\n'` splitting.
`pathlib` path normalization of empty or dot segments is not modelled;
paths are joined with `"/"` as the source does on POSIX.
-/

/-- ASCII whitespace set of Python `str.strip()`. -/
def pySpace (c : Char) : Bool :=
  c == ' ' || c == '\t' || c == '\n' || c == '\r' || c == '\x0b' || c == '\x0c'

/-- Python `str.strip()`: drop leading and trailing whitespace. -/
def pyStrip (l : List Char) : List Char :=
  ((l.dropWhile pySpace).reverse.dropWhile pySpace).reverse

/-- Python `str.strip(": ")`: drop leading and trailing `':'` / `' '`. -/
def stripColonSp (l : List Char) : List Char :=
  let p := fun c => c == ':' || c == ' '
  ((l.dropWhile p).reverse.dropWhile p).reverse

/-- Python `str.splitlines()` for `'\n'`-separated text: no entry after a
trailing newline, `[]` for the empty string. -/
def pyLines : List Char → List (List Char)
  | [] => []
  | c :: rest =>
    if c == '\n' then [] :: pyLines rest
    else
      match pyLines rest with
      | [] => [[c]]
      | l :: ls => (c :: l) :: ls

/-- Python `str.replace(pat, "")` for a nonempty pattern `p :: ps`:
remove all (leftmost, non-overlapping) occurrences.  Fuel-indexed so the
definition is structural and kernel-reducible; fuel = input length always
suffices since each step consumes at least one character. -/
def pyRemoveAllAux (p : Char) (ps : List Char) : Nat → List Char → List Char
  | 0, l => l
  | _ + 1, [] => []
  | fuel + 1, c :: rest =>
    if (p :: ps).isPrefixOf (c :: rest) then
      pyRemoveAllAux p ps fuel (rest.drop ps.length)
    else
      c :: pyRemoveAllAux p ps fuel rest

/-- Python `str.replace(pat, "")` for a nonempty pattern. -/
def pyRemoveAll (p : Char) (ps : List Char) (l : List Char) : List Char :=
  pyRemoveAllAux p ps l.length l

/-- Python `s.split("(")[0]`: the part before the first `'('`. -/
def beforeParen (s : List Char) : List Char :=
  s.takeWhile (fun c => c != '(')

/-- `s.split("(")[0].replace("def ", "").strip()` from `parse_python_files`. -/
def funcNameOf (s : List Char) : List Char :=
  pyStrip (pyRemoveAll 'd' ("ef ".data) (beforeParen s))

/-- `s.split("(")[0].replace("class ", "").strip(": ")` from `parse_python_files`. -/
def classNameOf (s : List Char) : List Char :=
  stripColonSp (pyRemoveAll 'c' ("lass ".data) (beforeParen s))

/-- The per-line extraction loop of `parse_python_files`: for each line,
strip it; a `"def "` prefix appends a function name, otherwise a
`"class "` prefix appends a class name. -/
def extractSyms : List (List Char) → List (List Char) × List (List Char)
  | [] => ([], [])
  | line :: rest =>
    let s := pyStrip line
    let r := extractSyms rest
    if "def ".data.isPrefixOf s then (funcNameOf s :: r.1, r.2)
    else if "class ".data.isPrefixOf s then (r.1, classNameOf s :: r.2)
    else r

/-- Is `b2` a valid UTF-8 continuation byte? -/
def contByte (b : Nat) : Bool := 0x80 ≤ b && b ≤ 0xbf

/-- Valid range of the second byte of a three-byte UTF-8 sequence led by `b`. -/
def cont3Snd (b b2 : Nat) : Bool :=
  if b == 0xe0 then 0xa0 ≤ b2 && b2 ≤ 0xbf
  else if b == 0xed then 0x80 ≤ b2 && b2 ≤ 0x9f
  else contByte b2

/-- Valid range of the second byte of a four-byte UTF-8 sequence led by `b`. -/
def cont4Snd (b b2 : Nat) : Bool :=
  if b == 0xf0 then 0x90 ≤ b2 && b2 ≤ 0xbf
  else if b == 0xf4 then 0x80 ≤ b2 && b2 ≤ 0x8f
  else contByte b2

/-- Worker for `utf8DecodeIgnore`, structural on a fuel argument so the
definition is kernel-reducible; fuel = input length always suffices since
each step consumes at least one byte. -/
def utf8DecodeIgnoreAux : Nat → List Nat → List Char
  | 0, _ => []
  | _ + 1, [] => []
  | fuel + 1, b :: rest =>
    if b < 0x80 then Char.ofNat b :: utf8DecodeIgnoreAux fuel rest
    else if 0xc2 ≤ b && b ≤ 0xdf then
      match rest with
      | b2 :: rest2 =>
        if contByte b2 then
          Char.ofNat ((b - 0xc0) * 0x40 + (b2 - 0x80)) :: utf8DecodeIgnoreAux fuel rest2
        else utf8DecodeIgnoreAux fuel rest
      | [] => []
    else if 0xe0 ≤ b && b ≤ 0xef then
      match rest with
      | b2 :: b3 :: rest3 =>
        if cont3Snd b b2 && contByte b3 then
          Char.ofNat ((b - 0xe0) * 0x1000 + (b2 - 0x80) * 0x40 + (b3 - 0x80)) ::
            utf8DecodeIgnoreAux fuel rest3
        else utf8DecodeIgnoreAux fuel rest
      | _ => utf8DecodeIgnoreAux fuel rest
    else if 0xf0 ≤ b && b ≤ 0xf4 then
      match rest with
      | b2 :: b3 :: b4 :: rest4 =>
        if cont4Snd b b2 && contByte b3 && contByte b4 then
          Char.ofNat ((b - 0xf0) * 0x40000 + (b2 - 0x80) * 0x1000 +
            (b3 - 0x80) * 0x40 + (b4 - 0x80)) :: utf8DecodeIgnoreAux fuel rest4
        else utf8DecodeIgnoreAux fuel rest
      | _ => utf8DecodeIgnoreAux fuel rest
    else utf8DecodeIgnoreAux fuel rest

/-- Python `bytes.decode("utf-8", errors="ignore")`: best-effort decode,
skipping bytes at which the strict decoder would error.  (CPython may
report an undecodable range of more than one byte at once, but every byte
of such a range is also individually undecodable, so skipping one byte at
a time produces the same decoded text.) -/
def utf8DecodeIgnore (l : List Nat) : List Char :=
  utf8DecodeIgnoreAux l.length l

/-- Worker for `isValidUtf8`, structural on fuel like `utf8DecodeIgnoreAux`. -/
def isValidUtf8Aux : Nat → List Nat → Bool
  | 0, l => l.isEmpty
  | _ + 1, [] => true
  | fuel + 1, b :: rest =>
    if b < 0x80 then isValidUtf8Aux fuel rest
    else if 0xc2 ≤ b && b ≤ 0xdf then
      match rest with
      | b2 :: rest2 => contByte b2 && isValidUtf8Aux fuel rest2
      | [] => false
    else if 0xe0 ≤ b && b ≤ 0xef then
      match rest with
      | b2 :: b3 :: rest3 => cont3Snd b b2 && contByte b3 && isValidUtf8Aux fuel rest3
      | _ => false
    else if 0xf0 ≤ b && b ≤ 0xf4 then
      match rest with
      | b2 :: b3 :: b4 :: rest4 =>
        cont4Snd b b2 && contByte b3 && contByte b4 && isValidUtf8Aux fuel rest4
      | _ => false
    else false

/-- Whether a byte sequence is valid UTF-8 (strict decode would succeed). -/
def isValidUtf8 (l : List Nat) : Bool :=
  isValidUtf8Aux l.length l

/-- Universal-newline translation performed by `Path.read_text`:
`"\r\n"` and `"\r"` both become `"\n"`. -/
def univNewlines : List Char → List Char
  | [] => []
  | '\r' :: '\n' :: rest => '\n' :: univNewlines rest
  | '\r' :: rest => '\n' :: univNewlines rest
  | c :: rest => c :: univNewlines rest

/-! ## Filesystem model and the Tree Builder (`build_file_tree`) -/

mutual

/-- A directory on disk: files (name, raw bytes) plus subdirectories, in
the order `os.scandir` reports them. -/
inductive FTree where
  | node : List (String × List Nat) → Forest → FTree

/-- The ordered subdirectories of a directory. -/
inductive Forest where
  | nil : Forest
  | cons : String → FTree → Forest → Forest

end

mutual

/-- `os.walk` (top-down) composed with an in-loop pruning of subdirectory
names (`dirs[:] = [d for d in dirs if d not in ...]`): yields the current
directory (as its component path relative to the root) with its files,
then recursively walks the unpruned subdirectories in order. -/
def walkTree (prune : String → Bool) (rel : List String) : FTree → List (List String × List (String × List Nat))
  | .node files sub => (rel, files) :: walkForest prune rel sub

/-- Walk the subdirectories of a directory in order, skipping pruned names. -/
def walkForest (prune : String → Bool) (rel : List String) : Forest → List (List String × List (String × List Nat))
  | .nil => []
  | .cons name t rest =>
    (if prune name then [] else walkTree prune (rel ++ [name]) t) ++ walkForest prune rel rest

end

/-- The fixed housekeeping exclusion list of `build_file_tree`. -/
def housekeepingDirs : List String := [".git", "node_modules", "__pycache__"]

/-- `os.path.relpath(root, repo_path)`: `"."` for the root itself,
otherwise the `"/"`-joined components. -/
def relString : List String → String
  | [] => "."
  | rel => String.intercalate "/" rel

/-- Python string comparison (`<`): lexicographic by code point. -/
def charListLt : List Char → List Char → Bool
  | [], [] => false
  | [], _ :: _ => true
  | _ :: _, [] => false
  | a :: as, b :: bs =>
    if a.toNat < b.toNat then true
    else if b.toNat < a.toNat then false
    else charListLt as bs

/-- Insert a string into an ascending list (helper for `sortStrings`). -/
def insertSorted (x : String) : List String → List String
  | [] => [x]
  | y :: ys => if charListLt y.data x.data then y :: insertSorted x ys else x :: y :: ys

/-- Python `sorted` on strings: ascending lexicographic order. -/
def sortStrings : List String → List String
  | [] => []
  | x :: xs => insertSorted x (sortStrings xs)

/-- `build_file_tree(repo_path)`.  The input is the filesystem at
`repo_path`: `none` when the path does not exist, in which case `os.walk`
swallows the lookup error (its `onerror` callback is `None`) and yields
nothing.  Output: a mapping (as the ordered list of dict assignments)
from each visited directory's relative path to its sorted file names. -/
def build_file_tree (root : Option FTree) : List (String × List String) :=
  match root with
  | none => []
  | some t =>
    (walkTree (fun d => housekeepingDirs.contains d) [] t).map
      (fun e => (relString e.1, sortStrings (e.2.map Prod.fst)))

/-! ## The Symbol Extractor (`parse_python_files`) -/

/-- One element of the `results` list of `parse_python_files`. -/
structure FileRec where
  file : String
  functions : List String
  classes : List String
deriving DecidableEq

/-- Python `str.endswith(suffix)`. -/
def pyEndsWith (suffix : List Char) (s : String) : Bool :=
  suffix.isSuffixOf s.data

/-- The per-file body of `parse_python_files`: read the file with
`encoding="utf-8", errors="ignore"` (universal newlines), extract
function and class names line by line, and build the result record. -/
def pyRecord (path : String) (bytes : List Nat) : FileRec :=
  let text := univNewlines (utf8DecodeIgnore bytes)
  let r := extractSyms (pyLines text)
  ⟨path, r.1.map String.mk, r.2.map String.mk⟩

/-- `str(Path(root) / fn)` for a walk entry at relative components `rel`
under `repo_path`: `"/"`-joined as `os.walk` builds its roots on POSIX. -/
def pyFilePath (repo_path : String) (rel : List String) (fn : String) : String :=
  String.intercalate "/" (repo_path :: rel) ++ "/" ++ fn

/-- `parse_python_files(repo_path)`: walk the whole tree (no pruning
here), and for every file named `*.py` append the record extracted from
its best-effort decoded text.  `none` models a nonexistent root, where
`os.walk` yields nothing. -/
def parse_python_files (repo_path : String) (root : Option FTree) : List FileRec :=
  match root with
  | none => []
  | some t =>
    (walkTree (fun _ => false) [] t).flatMap fun e =>
      (e.2.filter (fun f => pyEndsWith ".py".data f.1)).map fun f =>
        pyRecord (pyFilePath repo_path e.1 f.1) f.2

/-! ## Output files, the Graph Composer (`generate_function_graph`) -/

/-- The output side of the filesystem: path contents after the run. -/
def FS := String → Option String

/-- Writing a file: later writes win. -/
def fsWrite (fs : FS) (p c : String) : FS :=
  fun q => if q = p then some c else fs q

/-- One node declaration line written by `generate_function_graph`:
`  "{fn}" [shape=ellipse];`. -/
def nodeDecl (fn : String) : String :=
  "  \"" ++ fn ++ "\" [shape=ellipse];\n"

/-- All node declaration lines, in the order the nested loops write them
(one per function-name occurrence; duplicates are written again). -/
def dotDecls (analysis : List FileRec) : List String :=
  analysis.flatMap fun fileinfo => fileinfo.functions.map nodeDecl

/-- The full graph-description (`ccg.dot`) text. -/
def dotContent (analysis : List FileRec) : String :=
  "digraph CCG \x7b\n" ++ String.join (dotDecls analysis) ++ "\x7d\n"

/-- `generate_function_graph(repo_name, analysis_data, out_dir)`: write
the description to `out_dir/repo_name/ccg.dot`, then attempt external
rendering (`render` = the `dot -Tpng` subprocess; `some img` on success
gets written to `ccg.png`). On success the png path is returned, on any
failure (`none`) the dot path. -/
def generate_function_graph (render : String → Option String) (repo_name : String)
    (analysis : List FileRec) (out_dir : String) (fs : FS) : String × FS :=
  let dir := out_dir ++ "/" ++ repo_name
  let dot_path := dir ++ "/ccg.dot"
  let png_path := dir ++ "/ccg.png"
  let fs1 := fsWrite fs dot_path (dotContent analysis)
  match render (dotContent analysis) with
  | some img => (png_path, fsWrite fs1 png_path img)
  | none => (dot_path, fs1)

/-! ## The Document Assembler (`generate_markdown`) -/

/-- One hex digit (lowercase) as Python's `json` module prints `\uXXXX`. -/
def hexDigit (n : Nat) : Char :=
  if n < 10 then Char.ofNat ('0'.toNat + n) else Char.ofNat ('a'.toNat + (n - 10))

/-- A `\uXXXX` escape for a code unit below `0x10000`. -/
def uEsc4 (n : Nat) : List Char :=
  ['\\', 'u', hexDigit (n / 4096 % 16), hexDigit (n / 256 % 16),
   hexDigit (n / 16 % 16), hexDigit (n % 16)]

/-- `json.dumps` escaping of one character (`ensure_ascii=True` default):
quote, backslash and the short control escapes specially, other control
and all non-ASCII characters as `\uXXXX` (surrogate pairs above
`0xFFFF`), everything else verbatim. -/
def jsonEscChar (c : Char) : List Char :=
  if c == '"' then ['\\', '"']
  else if c == '\\' then ['\\', '\\']
  else if c == '\n' then ['\\', 'n']
  else if c == '\t' then ['\\', 't']
  else if c == '\r' then ['\\', 'r']
  else if c == '\x08' then ['\\', 'b']
  else if c == '\x0c' then ['\\', 'f']
  else if c.toNat < 0x20 ∨ 0x7e < c.toNat then
    if c.toNat < 0x10000 then uEsc4 c.toNat
    else
      uEsc4 (0xd800 + (c.toNat - 0x10000) / 0x400) ++
        uEsc4 (0xdc00 + (c.toNat - 0x10000) % 0x400)
  else [c]

/-- A JSON string literal as `json.dumps` prints it. -/
def jsonStr (s : String) : String :=
  String.mk ('"' :: s.data.flatMap jsonEscChar ++ ['"'])

/-- `json.dumps(tree, indent=2)` for the file-tree dict (string keys,
lists of strings as values), in insertion order. -/
def jsonDumpsTree (m : List (String × List String)) : String :=
  match m with
  | [] => "\x7b\x7d"
  | _ =>
    "\x7b\n" ++
      String.intercalate ",\n" (m.map fun kv =>
        "  " ++ jsonStr kv.1 ++ ": " ++
          (match kv.2 with
           | [] => "[]"
           | vs => "[\n" ++ String.intercalate ",\n" (vs.map fun v => "    " ++ jsonStr v) ++ "\n  ]")) ++
      "\n\x7d"

/-- Python string slicing `s[:n]` (by characters). -/
def takeChars (n : Nat) (s : String) : String :=
  String.mk (s.data.take n)

/-- The `### file` block the assembler writes for one analysis record. -/
def analysisSection (item : FileRec) : String :=
  "### " ++ item.file ++ "\n" ++
    "- Functions: " ++ String.intercalate ", " item.functions ++ "\n" ++
    "- Classes: " ++ String.intercalate ", " item.classes ++ "\n\n"

/-- All `### file` blocks in order. -/
def analysisSections (analysis : List FileRec) : String :=
  String.join (analysis.map analysisSection)

/-- `Path(p).parent`: drop the last `"/"`-separated component (the
argument always contains a `"/"` where `generate_markdown` uses it). -/
def splitSlash : List Char → List (List Char)
  | [] => [[]]
  | c :: rest =>
    if c == '/' then [] :: splitSlash rest
    else
      match splitSlash rest with
      | [] => [[c]]
      | l :: ls => (c :: l) :: ls

/-- `str(Path(p).parent)` (for paths with at least two components). -/
def parentPath (p : String) : String :=
  String.intercalate "/" (((splitSlash p.data).map String.mk).dropLast)

/-- The Markdown text assembled by `generate_markdown`, including the
in-function re-invocation of `generate_function_graph` whose returned
path lands in the Diagrams section. -/
def generate_markdown_content (render : String → Option String) (repo_name : String)
    (repo_maps : List (String × List String)) (analysis : List FileRec)
    (out_dir : String) (fs : FS) : String :=
  "# " ++ repo_name ++
    (" Documentation\n\n## Repository Overview\n\n### File Tree\n```\n" ++
     (takeChars 5000 (jsonDumpsTree repo_maps) ++
      ("\n```\n\n## Code Analysis Summary\n" ++ analysisSections analysis))) ++
  ("## Diagrams\n\nCCG diagram located at `" ++
    ((generate_function_graph render repo_name analysis
        (parentPath (out_dir ++ "/" ++ repo_name)) fs).1 ++ "`\n"))

/-- `generate_markdown(repo_name, repo_maps, analysis_data, out_dir)`:
build the document text (re-running the Graph Composer as a side
effect), write it to `out_dir/repo_name/docs.md`, and return that path
together with the resulting filesystem.  (The `try: json.dumps ...
except` fallback to `str(repo_maps)` is unreachable for the string-keyed
tree dict and is not modelled.) -/
def generate_markdown (render : String → Option String) (repo_name : String)
    (repo_maps : List (String × List String)) (analysis : List FileRec)
    (out_dir : String) (fs : FS) : String × FS :=
  let dir := out_dir ++ "/" ++ repo_name
  let out_file := dir ++ "/docs.md"
  let graphFS := (generate_function_graph render repo_name analysis
      (parentPath (out_dir ++ "/" ++ repo_name)) fs).2
  let content := generate_markdown_content render repo_name repo_maps analysis out_dir fs
  (out_file, fsWrite graphFS out_file content)

/-! ## Gemini synthesis stages -/

/-- The exceptions `init_gemini` raises. -/
inductive GeminiError where
  | importError (msg : String)
  | valueError (msg : String)
deriving DecidableEq

/-- Process configuration seen by `init_gemini`: whether the
`google.generativeai` import succeeded, and `os.getenv("GEMINI_API_KEY")`. -/
structure GeminiEnv where
  genaiAvailable : Bool
  apiKey : Option String

/-- `init_gemini()`: raises `ImportError` when the SDK import failed,
`ValueError` when the API key is absent or empty (Python falsy), and
otherwise configures and returns the model handle. -/
def init_gemini (env : GeminiEnv) : Except GeminiError Unit :=
  if env.genaiAvailable = false then
    .error (.importError "google-generativeai not installed.")
  else if env.apiKey.getD "" = "" then
    .error (.valueError "Missing GEMINI_API_KEY in .env")
  else .ok ()

/-- `summarize_readme_with_gemini(readme_text, repo_name)`: calls
`init_gemini()` with no surrounding `try`, so its exceptions propagate;
on success returns the generated text, stripped.  `gen` is the external
`model.generate_content(...).text` collaborator. -/
def summarize_readme_with_gemini (env : GeminiEnv) (gen : String → String)
    (readme_text repo_name : String) : Except GeminiError String :=
  match init_gemini env with
  | .error e => .error e
  | .ok _ =>
    let prompt :=
      "Summarize the README of repository '" ++ repo_name ++ "' in Markdown format.\n" ++
        "Include purpose, features, setup, and usage.\n\n" ++ readme_text
    .ok (String.mk (pyStrip (gen prompt).data))

/-- `explain_code_module_with_gemini(file_content, filename)`: same
structure; the prompt truncates the file content to 3000 characters. -/
def explain_code_module_with_gemini (env : GeminiEnv) (gen : String → String)
    (file_content filename : String) : Except GeminiError String :=
  match init_gemini env with
  | .error e => .error e
  | .ok _ =>
    let prompt :=
      "You are Codebase Genius. Explain the file '" ++ filename ++ "' concisely.\n" ++
        "Highlight key classes and functions.\n\n" ++ takeChars 3000 file_content
    .ok (String.mk (pyStrip (gen prompt).data))

/-- `synthesize_final_doc_with_gemini(repo_name, repo_summary,
analysis_text)`: same structure, with the triple-quoted prompt. -/
def synthesize_final_doc_with_gemini (env : GeminiEnv) (gen : String → String)
    (repo_name repo_summary analysis_text : String) : Except GeminiError String :=
  match init_gemini env with
  | .error e => .error e
  | .ok _ =>
    let prompt :=
      "\nCreate a clean Markdown documentation for '" ++ repo_name ++
        "' using the information below:\n\nRepository Summary:\n" ++ repo_summary ++
        "\n\nCode Analysis:\n" ++ analysis_text ++ "\n"
    .ok (String.mk (pyStrip (gen prompt).data))

/-! ## Auxiliary definitions used by the statements -/

/-- The first line of a text: the characters before the first `'\n'`. -/
def firstLine (s : String) : String :=
  String.mk (s.data.takeWhile (fun c => c != '\n'))

/-- The bytes of an ASCII string (used to build concrete file contents). -/
def asciiBytes (s : String) : List Nat :=
  s.data.map Char.toNat

/-- The set-union of all function names across all analysis records, as
the spec describes the Graph Composer's node set. -/
def allFunctionNames (analysis : List FileRec) : Finset String :=
  analysis.foldr (fun r acc => r.functions.toFinset ∪ acc) ∅

/-- Follows the spec's words: a *textually top-level* function-definition
line, i.e. one that begins with `"def "` with no leading indentation
(contrast with the code, which strips the line first). -/
def topLevelDefLine (l : List Char) : Bool :=
  "def ".data.isPrefixOf l

/-- A source file with one top-level and one nested function definition. -/
def nestedExample : List Nat :=
  asciiBytes "def a():\n    def b():\n        pass\n"

/-- A `.py` file whose bytes are not valid UTF-8 (trailing `0xff`) but
whose decodable prefix holds a function definition. -/
def badPyBytes : List Nat :=
  asciiBytes "def foo():\n" ++ [0xff]

/-- A repository containing a `.git` directory that itself contains a file. -/
def exampleTree : FTree :=
  .node [("a.py", [])] (.cons ".git" (.node [("secret", [])] .nil) .nil)

/-! ## Helper lemmas -/

theorem strExt {a b : String} (h : a.data = b.data) : a = b := by
  cases a
  cases b
  exact congrArg String.mk h

theorem strData_append (a b : String) : (a ++ b).data = a.data ++ b.data := by
  cases a
  cases b
  rfl

theorem takeWhile_append_of_all {α} (p : α → Bool) {l1 : List α} (l2 : List α)
    (h : l1.all p = true) : (l1 ++ l2).takeWhile p = l1 ++ l2.takeWhile p := by
  induction l1 with
  | nil => simp
  | cons a as ih =>
    simp only [List.all_cons, Bool.and_eq_true] at h
    simp [List.takeWhile_cons, h.1, ih h.2]

theorem takeWhile_append_of_not_all {α} (p : α → Bool) {l1 : List α} (l2 : List α)
    (h : l1.all p = false) : (l1 ++ l2).takeWhile p = l1.takeWhile p := by
  induction l1 with
  | nil => simp at h
  | cons a as ih =>
    by_cases hpa : p a = true
    · simp only [List.all_cons, hpa, Bool.true_and] at h
      simp [List.takeWhile_cons, hpa, ih h]
    · simp only [Bool.not_eq_true] at hpa
      simp [List.takeWhile_cons, hpa]

theorem append_ne_of_ne_suffix {s t : String} (x y : String)
    (hlen : s.data.length = t.data.length) (hne : s ≠ t) : x ++ s ≠ y ++ t := by
  intro h
  apply hne
  have hd : x.data ++ s.data = y.data ++ t.data := by
    have := congrArg String.data h
    simpa [strData_append] using this
  have hrev : s.data.reverse ++ x.data.reverse = t.data.reverse ++ y.data.reverse := by
    have := congrArg List.reverse hd
    simpa [List.reverse_append] using this
  have hinj := List.append_inj hrev (by simpa using hlen)
  apply strExt
  have := congrArg List.reverse hinj.1
  simpa using this

/-- The extraction loop is the in-order filter-and-map over the lines. -/
theorem extractSyms_eq (lines : List (List Char)) :
    extractSyms lines =
      ((lines.filter fun l => "def ".data.isPrefixOf (pyStrip l)).map
         (fun l => funcNameOf (pyStrip l)),
       (lines.filter fun l =>
           !"def ".data.isPrefixOf (pyStrip l) && "class ".data.isPrefixOf (pyStrip l)).map
         (fun l => classNameOf (pyStrip l))) := by
  induction lines with
  | nil => rfl
  | cons line rest ih =>
    by_cases h1 : "def ".data.isPrefixOf (pyStrip line) = true
    · simp [extractSyms, ih, List.filter_cons, h1]
    · simp only [Bool.not_eq_true] at h1
      by_cases h2 : "class ".data.isPrefixOf (pyStrip line) = true
      · simp [extractSyms, ih, List.filter_cons, h1, h2]
      · simp only [Bool.not_eq_true] at h2
        simp [extractSyms, ih, List.filter_cons, h1, h2]

mutual

/-- Every entry the pruned walk yields sits at the walk's start components
followed only by unpruned directory names. -/
theorem walkTree_comps (prune : String → Bool) :
    (t : FTree) → ∀ rel : List String, ∀ e ∈ walkTree prune rel t,
      ∃ comps, e.1 = rel ++ comps ∧ ∀ c ∈ comps, prune c = false
  | .node files sub => by
    intro rel e he
    rw [walkTree] at he
    rcases List.mem_cons.mp he with h | h
    · exact ⟨[], by simp [h], by simp⟩
    · exact walkForest_comps prune sub rel e h

/-- Forest version of `walkTree_comps`. -/
theorem walkForest_comps (prune : String → Bool) :
    (f : Forest) → ∀ rel : List String, ∀ e ∈ walkForest prune rel f,
      ∃ comps, e.1 = rel ++ comps ∧ ∀ c ∈ comps, prune c = false
  | .nil => by
    intro rel e he
    rw [walkForest] at he
    simp at he
  | .cons name t rest => by
    intro rel e he
    rw [walkForest] at he
    rcases List.mem_append.mp he with h | h
    · by_cases hp : prune name = true
      · rw [if_pos hp] at h
        simp at h
      · simp only [Bool.not_eq_true] at hp
        rw [if_neg (by simp [hp])] at h
        obtain ⟨comps, hc1, hc2⟩ := walkTree_comps prune t (rel ++ [name]) e h
        refine ⟨name :: comps, by simp [hc1], ?_⟩
        intro c hc
        rcases List.mem_cons.mp hc with rfl | hc
        · exact hp
        · exact hc2 c hc
    · exact walkForest_comps prune rest rel e h

end

/-- Mapping each produced element does not change how many elements a
filtered flat-map yields. -/
theorem length_flatMap_map {α β γ} (l : List α) (f : α → List β) (g : α → β → γ) :
    (l.flatMap fun a => (f a).map (g a)).length = (l.flatMap f).length := by
  induction l with
  | nil => rfl
  | cons a as ih => simp [List.flatMap_cons, ih]

/-- `generate_function_graph` always (re)writes the description file. -/
theorem graph_writes_dot (render : String → Option String) (repo_name : String)
    (analysis : List FileRec) (out_dir : String) (fs : FS) :
    (generate_function_graph render repo_name analysis out_dir fs).2
      (out_dir ++ "/" ++ repo_name ++ "/ccg.dot") = some (dotContent analysis) := by
  unfold generate_function_graph
  cases hr : render (dotContent analysis) with
  | none => simp [fsWrite]
  | some img =>
    simp only [fsWrite]
    rw [if_neg (append_ne_of_ne_suffix _ _ (by decide) (by decide))]
    simp

theorem toFinset_map_list {α β} [DecidableEq α] [DecidableEq β] (f : α → β) (l : List α) :
    (l.map f).toFinset = l.toFinset.image f := by
  induction l with
  | nil => simp
  | cons a as ih => simp [ih]

/-! ## Claim theorems -/

/-- Claim C3: the set of node declarations `generate_function_graph`
writes into the graph description equals the set-union of all function
names across all records; a name occurring in several records (or
several times) yields exactly one declaration in that set. -/
theorem dot_node_set_eq_union (analysis : List FileRec) :
    (dotDecls analysis).toFinset = (allFunctionNames analysis).image nodeDecl := by
  induction analysis with
  | nil => simp [dotDecls, allFunctionNames]
  | cons r rest ih =>
    simp only [dotDecls, allFunctionNames] at ih ⊢
    simp [List.flatMap_cons, Finset.image_union, ih, toFinset_map_list]

/-- Claim C4 counterexample: for a nonexistent root, `build_file_tree`
returns the empty mapping — `os.walk` swallows the lookup error, so no
error reaches the caller, contrary to the claim. -/
theorem build_file_tree_nonexistent_cex : build_file_tree none = [] := rfl

/-- Claim C4 (amended): for every path that does not exist on the
filesystem, `build_file_tree` returns the empty mapping (and raises no
error). -/
theorem build_file_tree_nonexistent_empty (root : Option FTree) (h : root = none) :
    build_file_tree root = [] := by
  rw [h]
  rfl

/-- Witness for `build_file_tree_nonexistent_empty`. -/
theorem build_file_tree_nonexistent_empty_witness : build_file_tree none = [] :=
  build_file_tree_nonexistent_empty none rfl

/-- Claim C5: after every run of `generate_function_graph` the
description file `ccg.dot` holds the description, and whenever the
external rendering step fails the function returns the description path
instead of the image path. -/
theorem generate_function_graph_desc_and_degrade (render : String → Option String)
    (repo_name : String) (analysis : List FileRec) (out_dir : String) (fs : FS) :
    ((generate_function_graph render repo_name analysis out_dir fs).2
        (out_dir ++ "/" ++ repo_name ++ "/ccg.dot") = some (dotContent analysis)) ∧
    (render (dotContent analysis) = none →
      (generate_function_graph render repo_name analysis out_dir fs).1 =
        out_dir ++ "/" ++ repo_name ++ "/ccg.dot") := by
  refine ⟨graph_writes_dot render repo_name analysis out_dir fs, fun h => ?_⟩
  unfold generate_function_graph
  rw [h]

/-- Witness for `generate_function_graph_desc_and_degrade` at a failing
renderer. -/
theorem generate_function_graph_desc_and_degrade_witness :
    ((generate_function_graph (fun _ => none) "repo" [] "outputs" (fun _ => none)).2
        ("outputs" ++ "/" ++ "repo" ++ "/ccg.dot") = some (dotContent [])) ∧
    ((generate_function_graph (fun _ => none) "repo" [] "outputs" (fun _ => none)).1 =
      "outputs" ++ "/" ++ "repo" ++ "/ccg.dot") :=
  ⟨(generate_function_graph_desc_and_degrade (fun _ => none) "repo" [] "outputs"
      (fun _ => none)).1,
   (generate_function_graph_desc_and_degrade (fun _ => none) "repo" [] "outputs"
      (fun _ => none)).2 rfl⟩

/-- Claim C6: every key of the Tree Builder's mapping is either `"."`
(the root itself) or a join of directory names none of which is a
housekeeping name — so there is no entry for, or under, `.git`,
`node_modules` or `__pycache__`, even when those directories contain
files. -/
theorem build_file_tree_excludes_housekeeping (t : FTree) (k : String) (v : List String)
    (h : (k, v) ∈ build_file_tree (some t)) :
    k = "." ∨ ∃ comps : List String, comps ≠ [] ∧ (∀ c ∈ comps, c ∉ housekeepingDirs) ∧
      k = String.intercalate "/" comps := by
  simp only [build_file_tree, List.mem_map] at h
  obtain ⟨e, he, heq⟩ := h
  obtain ⟨comps, hc1, hc2⟩ := walkTree_comps _ t [] e he
  have hk : k = relString e.1 := by
    have := congrArg Prod.fst heq
    simpa using this.symm
  rw [hc1] at hk
  simp only [List.nil_append] at hk
  cases comps with
  | nil =>
    left
    simpa [relString] using hk
  | cons c cs =>
    right
    refine ⟨c :: cs, by simp, ?_, by simpa [relString] using hk⟩
    intro d hd
    have hpr := hc2 d hd
    simpa using hpr

/-- Witness for `build_file_tree_excludes_housekeeping` on a repository
with a populated `.git` directory. -/
theorem build_file_tree_excludes_housekeeping_witness :
    ((".", ["a.py"]) ∈ build_file_tree (some exampleTree)) ∧
    ("." = "." ∨ ∃ comps : List String, comps ≠ [] ∧
      (∀ c ∈ comps, c ∉ housekeepingDirs) ∧ "." = String.intercalate "/" comps) :=
  ⟨by decide, build_file_tree_excludes_housekeeping exampleTree "." ["a.py"] (by decide)⟩

/-- Claim C7 counterexample: a `.py` file whose bytes are not valid
UTF-8 is scanned without aborting, but its record's functions list is
NOT empty — the decodable part is parsed, contrary to the claim. -/
theorem parse_python_files_undecodable_cex :
    isValidUtf8 badPyBytes = false ∧
    parse_python_files "r" (some (FTree.node [("a.py", badPyBytes)] Forest.nil)) =
      [⟨"r/a.py", ["foo"], []⟩] ∧
    (⟨"r/a.py", ["foo"], []⟩ : FileRec).functions ≠ [] := by
  decide

/-- Claim C7 (amended): no file content ever aborts the scan — the batch
yields exactly one record per `.py` file encountered, whatever its
bytes; the record's lists are parsed from the best-effort decode and may
be non-empty. -/
theorem parse_python_files_never_aborts (repo_path : String) (t : FTree) :
    (parse_python_files repo_path (some t)).length =
      ((walkTree (fun _ => false) [] t).flatMap
        (fun e => e.2.filter (fun f => pyEndsWith ".py".data f.1))).length := by
  unfold parse_python_files
  exact length_flatMap_map _ _ _

/-- Claim C8 counterexample: with the SDK missing, the README
summarization stage does not return a false/None result — the
`ImportError` raised by `init_gemini` escapes the stage boundary. -/
theorem summarize_unconfigured_cex :
    summarize_readme_with_gemini ⟨false, none⟩ (fun _ => "") "" "repo" =
      .error (.importError "google-generativeai not installed.") := rfl

/-- Claim C8 (amended): a missing SDK or a missing/empty credential
makes every synthesis stage fail with the (clearly distinguishable)
exception raised by `init_gemini`, which propagates out of the stage. -/
theorem gemini_stages_error_on_missing_config (env : GeminiEnv) (gen : String → String)
    (readme repo_name file_content filename repo_summary analysis_text : String)
    (h : env.genaiAvailable = false ∨ env.apiKey.getD "" = "") :
    (∃ e, summarize_readme_with_gemini env gen readme repo_name = .error e) ∧
    (∃ e, explain_code_module_with_gemini env gen file_content filename = .error e) ∧
    (∃ e, synthesize_final_doc_with_gemini env gen repo_name repo_summary analysis_text =
      .error e) := by
  have hinit : ∃ e, init_gemini env = .error e := by
    unfold init_gemini
    rcases h with h | h
    · exact ⟨_, by rw [if_pos h]⟩
    · by_cases hg : env.genaiAvailable = false
      · exact ⟨_, by rw [if_pos hg]⟩
      · exact ⟨_, by rw [if_neg hg, if_pos h]⟩
  obtain ⟨e, he⟩ := hinit
  refine ⟨⟨e, ?_⟩, ⟨e, ?_⟩, ⟨e, ?_⟩⟩ <;>
    simp [summarize_readme_with_gemini, explain_code_module_with_gemini,
      synthesize_final_doc_with_gemini, he]

/-- Witness for `gemini_stages_error_on_missing_config` with the SDK
absent. -/
theorem gemini_stages_error_on_missing_config_witness :
    (∃ e, summarize_readme_with_gemini ⟨false, none⟩ (fun _ => "") "" "repo" = .error e) ∧
    (∃ e, explain_code_module_with_gemini ⟨false, none⟩ (fun _ => "") "" "f.py" = .error e) ∧
    (∃ e, synthesize_final_doc_with_gemini ⟨false, none⟩ (fun _ => "") "repo" "" "" =
      .error e) :=
  gemini_stages_error_on_missing_config ⟨false, none⟩ (fun _ => "") "" "repo" "" "f.py" "" ""
    (Or.inl rfl)

/-- Claim C2 counterexample: a file with one textually top-level `def`
line and one nested (indented) `def` line yields a record listing BOTH
names — the heuristic strips each line first, so nested definitions do
appear, contrary to the claim. -/
theorem parse_record_counts_cex :
    (pyRecord "a.py" nestedExample).functions = ["a", "b"] ∧
    ((pyLines (univNewlines (utf8DecodeIgnore nestedExample))).filter
      (fun l => topLevelDefLine l)).length = 1 := by
  decide

/-- Claim C2 (amended): the record for a scanned file lists exactly one
function name per line whose *stripped* text begins with `"def "` and
one class name per remaining line whose stripped text begins with
`"class "` — indented (nested) definition lines are included. -/
theorem parse_record_counts (path : String) (bytes : List Nat) :
    (pyRecord path bytes).functions.length =
      ((pyLines (univNewlines (utf8DecodeIgnore bytes))).filter
        (fun l => "def ".data.isPrefixOf (pyStrip l))).length ∧
    (pyRecord path bytes).classes.length =
      ((pyLines (univNewlines (utf8DecodeIgnore bytes))).filter
        (fun l => !"def ".data.isPrefixOf (pyStrip l) &&
          "class ".data.isPrefixOf (pyStrip l))).length := by
  unfold pyRecord
  simp [extractSyms_eq]

/-- Claim C10: the functions and classes lists of a scanned file's record
are exactly the in-order images of the matching (stripped-prefix)
definition lines, so they preserve source order. -/
theorem parse_record_preserves_order (path : String) (bytes : List Nat) :
    (pyRecord path bytes).functions =
      ((pyLines (univNewlines (utf8DecodeIgnore bytes))).filter
        (fun l => "def ".data.isPrefixOf (pyStrip l))).map
        (fun l => String.mk (funcNameOf (pyStrip l))) ∧
    (pyRecord path bytes).classes =
      ((pyLines (univNewlines (utf8DecodeIgnore bytes))).filter
        (fun l => !"def ".data.isPrefixOf (pyStrip l) &&
          "class ".data.isPrefixOf (pyStrip l))).map
        (fun l => String.mk (classNameOf (pyStrip l))) := by
  unfold pyRecord
  simp [extractSyms_eq]

/-- Claim C1 counterexample: for the repository name `"a\nb"` (a name
containing a newline) the first line of the assembled document is
`"# a"`, which does not contain the repository name. -/
theorem generate_markdown_heading_cex :
    ¬ (("a\nb").data <:+:
      (firstLine (generate_markdown_content (fun _ => none) "a\nb" [] [] "o"
        (fun _ => none))).data) := by
  have h : firstLine (generate_markdown_content (fun _ => none) "a\nb" [] [] "o"
      (fun _ => none)) = "# a" := by decide
  rw [h]
  decide

/-- Claim C1 (amended): for every repository name without a newline
character (and all other inputs, empty or not, with or without any
generative text), the assembled document is non-empty and its first
line is the heading `"# {name} Documentation"`, which contains the
repository name. -/
theorem generate_markdown_first_line (render : String → Option String)
    (repo_name : String) (repo_maps : List (String × List String))
    (analysis : List FileRec) (out_dir : String) (fs : FS)
    (h : '\n' ∉ repo_name.data) :
    (generate_markdown_content render repo_name repo_maps analysis out_dir fs ≠ "") ∧
    (firstLine (generate_markdown_content render repo_name repo_maps analysis out_dir fs) =
      "# " ++ repo_name ++ " Documentation") ∧
    (∃ pre post,
      firstLine (generate_markdown_content render repo_name repo_maps analysis out_dir fs) =
        pre ++ repo_name ++ post) ∧
    ("#".data.isPrefixOf
      (firstLine (generate_markdown_content render repo_name repo_maps analysis out_dir
        fs)).data = true) := by
  have hall : repo_name.data.all (fun c => c != '\n') = true := by
    rw [List.all_eq_true]
    intro c hc
    simp only [bne_iff_ne, ne_eq]
    intro heq
    exact h (heq ▸ hc)
  have h2 : firstLine (generate_markdown_content render repo_name repo_maps analysis out_dir
      fs) = "# " ++ repo_name ++ " Documentation" := by
    apply strExt
    show (generate_markdown_content render repo_name repo_maps analysis out_dir
        fs).data.takeWhile (fun c => c != '\n') = _
    unfold generate_markdown_content
    simp only [strData_append, List.append_assoc]
    rw [takeWhile_append_of_all _ _ (by decide)]
    rw [takeWhile_append_of_all _ _ hall]
    rw [takeWhile_append_of_not_all _ _ (by decide)]
    rw [show ((" Documentation\n\n## Repository Overview\n\n### File Tree\n```\n" :
      String).data.takeWhile (fun c => c != '\n')) = (" Documentation" : String).data from
      by decide]
  refine ⟨?_, h2, ⟨"# ", " Documentation", h2⟩, ?_⟩
  · intro hc
    have hd := congrArg String.data hc
    unfold generate_markdown_content at hd
    simp only [strData_append, List.append_assoc] at hd
    simp at hd
  · rw [h2]
    simp only [strData_append, List.append_assoc]
    simp [List.isPrefixOf]

/-- Witness for `generate_markdown_first_line` on concrete inputs. -/
theorem generate_markdown_first_line_witness :
    (generate_markdown_content (fun _ => none) "repo" [] [] "outputs" (fun _ => none) ≠ "") ∧
    (firstLine (generate_markdown_content (fun _ => none) "repo" [] [] "outputs"
        (fun _ => none)) = "# " ++ "repo" ++ " Documentation") ∧
    (∃ pre post,
      firstLine (generate_markdown_content (fun _ => none) "repo" [] [] "outputs"
        (fun _ => none)) = pre ++ "repo" ++ post) ∧
    ("#".data.isPrefixOf
      (firstLine (generate_markdown_content (fun _ => none) "repo" [] [] "outputs"
        (fun _ => none))).data = true) :=
  generate_markdown_first_line (fun _ => none) "repo" [] [] "outputs" (fun _ => none)
    (by decide)

/-- Claim C9: `generate_markdown` itself re-invokes
`generate_function_graph`, so after every assembly the graph description
file holds the freshly written description, and the Diagrams section of
the document ends with exactly the path returned by that invocation. -/
theorem generate_markdown_reinvokes_graph (render : String → Option String)
    (repo_name : String) (repo_maps : List (String × List String))
    (analysis : List FileRec) (out_dir : String) (fs : FS) :
    ((generate_markdown render repo_name repo_maps analysis out_dir fs).2
        (parentPath (out_dir ++ "/" ++ repo_name) ++ "/" ++ repo_name ++ "/ccg.dot") =
      some (dotContent analysis)) ∧
    (∃ pre,
      (generate_markdown render repo_name repo_maps analysis out_dir fs).2
          (generate_markdown render repo_name repo_maps analysis out_dir fs).1 =
        some (pre ++ ("## Diagrams\n\nCCG diagram located at `" ++
          ((generate_function_graph render repo_name analysis
              (parentPath (out_dir ++ "/" ++ repo_name)) fs).1 ++ "`\n")))) := by
  constructor
  · simp only [generate_markdown, fsWrite]
    rw [if_neg (append_ne_of_ne_suffix _ _ (by decide) (by decide))]
    exact graph_writes_dot render repo_name analysis
      (parentPath (out_dir ++ "/" ++ repo_name)) fs
  · refine ⟨"# " ++ repo_name ++
      (" Documentation\n\n## Repository Overview\n\n### File Tree\n```\n" ++
       (takeChars 5000 (jsonDumpsTree repo_maps) ++
        ("\n```\n\n## Code Analysis Summary\n" ++ analysisSections analysis))), ?_⟩
    simp only [generate_markdown, fsWrite, generate_markdown_content]
    simp
